import Mathlib

/-!
Verification of the PSARC container handling in RocksmithGuitarMute.

The definitions below are shallow embeddings of the Python sources:
byte strings become `List Nat` (each element a byte value), Python text
strings become `List Char`, fallible operations return `Option` or
`Except`, and the process-wide state touched by the orchestrator
(current working directory, file system paths) is threaded explicitly.
-/

namespace PSARC

/-- Big-endian interpretation of a byte list as an unsigned integer.
Embeds Python `struct.unpack` with a `>`-format / `int.from_bytes(_, 'big')`. -/
def beBytesToNat : List Nat → Nat
  | [] => 0
  | b :: bs => b * 256 ^ bs.length + beBytesToNat bs

/-- Big-endian byte list of `v` in exactly `n` bytes (value assumed to fit). -/
def natToBEBytes : Nat → Nat → List Nat
  | _, 0 => []
  | v, n + 1 => v / 256 ^ n % 256 :: natToBEBytes (v % 256 ^ n) n

/-- Embeds Python `v.to_bytes(n, 'big')`: `none` models the `OverflowError`
raised when the value does not fit in `n` bytes. -/
def toBytesBE (v n : Nat) : Option (List Nat) :=
  if v < 256 ^ n then some (natToBEBytes v n) else none

/-- Embeds the Python slice `bs[start : start + len]`. -/
def sliceBytes (bs : List Nat) (start len : Nat) : List Nat :=
  (bs.drop start).take len

/-- The archive header fields, as decoded by `analyze_psarc_structure`
(deep_psarc_analysis.py, lines 32-40). -/
structure PsarcHeader where
  magic : List Nat
  versionMajor : Nat
  versionMinor : Nat
  compression : List Nat
  tocLength : Nat
  tocEntrySize : Nat
  tocEntryCount : Nat
  blockSize : Nat
  archiveFlags : Nat
deriving DecidableEq

/-- The 4-byte magic `b'PSAR'`. -/
def psarMagic : List Nat := [80, 83, 65, 82]

/-- Header parse from `analyze_psarc_structure`: the magic is checked first
(mismatch aborts), then the fixed 32-byte layout is decoded with big-endian
`struct.unpack` calls, which require the slices to be full width. -/
def parseHeader (data : List Nat) : Option PsarcHeader :=
  if data.take 4 = psarMagic ∧ 32 ≤ data.length then
    some { magic := data.take 4
         , versionMajor := beBytesToNat (sliceBytes data 4 2)
         , versionMinor := beBytesToNat (sliceBytes data 6 2)
         , compression := sliceBytes data 8 4
         , tocLength := beBytesToNat (sliceBytes data 12 4)
         , tocEntrySize := beBytesToNat (sliceBytes data 16 4)
         , tocEntryCount := beBytesToNat (sliceBytes data 20 4)
         , blockSize := beBytesToNat (sliceBytes data 24 4)
         , archiveFlags := beBytesToNat (sliceBytes data 28 4) }
  else none

/-- Embeds `is_encrypted = bool(archive_flags & 4)` (deep_psarc_analysis.py,
line 53). -/
def isEncrypted (h : PsarcHeader) : Bool :=
  h.archiveFlags &&& 4 != 0

/-- The two branches the analyzer can take for the TOC region. -/
inductive TocHandling where
  | decryptFirst
  | parseDirect
deriving DecidableEq

/-- Embeds the branch `if is_encrypted:` (line 61) that decides whether the
TOC region is decrypted before parsing. -/
def tocHandling (h : PsarcHeader) : TocHandling :=
  if isEncrypted h then TocHandling.decryptFirst else TocHandling.parseDirect

/-- One TOC entry as decoded by `analyze_psarc_structure` (lines 83-95). -/
structure TocEntry where
  filenameHash : List Nat
  zIndexBegin : Nat
  length : Nat
  offset : Nat
deriving DecidableEq

/-- Entry record decode exactly as the code performs it (lines 83-87):
records shorter than 30 bytes are skipped; the hash is bytes [0:16], the
z-index is `unpack('>I', entry_data[16:20])`, and the length and offset are
`unpack('>Q', b'\x00\x00\x00\x00' + entry_data[20:24])` and
`unpack('>Q', b'\x00\x00\x00\x00' + entry_data[24:28])`: four data bytes
each, zero-extended to 64 bits. -/
def parseTocEntryCode (entryData : List Nat) : Option TocEntry :=
  if 30 ≤ entryData.length then
    some { filenameHash := entryData.take 16
         , zIndexBegin := beBytesToNat (sliceBytes entryData 16 4)
         , length := beBytesToNat (List.replicate 4 0 ++ sliceBytes entryData 20 4)
         , offset := beBytesToNat (List.replicate 4 0 ++ sliceBytes entryData 24 4) }
  else none

/-- Entry record decode following the spec sentence, for comparison with
`parseTocEntryCode`: the length and offset are 40-bit unsigned fields, five
bytes each, big-endian, zero-extended, at offsets [20:25] and [25:30]. -/
def parseTocEntrySpec (entryData : List Nat) : Option TocEntry :=
  if 30 ≤ entryData.length then
    some { filenameHash := entryData.take 16
         , zIndexBegin := beBytesToNat (sliceBytes entryData 16 4)
         , length := beBytesToNat (sliceBytes entryData 20 5)
         , offset := beBytesToNat (sliceBytes entryData 25 5) }
  else none

/-- Result of parsing the decrypted TOC region. -/
structure TocParse where
  entries : List TocEntry
  bom : List Nat
deriving DecidableEq

/-- Embeds the decrypted-TOC processing of `analyze_psarc_structure`
(lines 68-111): the loop `for i in range(toc_entry_count)` slices a record
at `i * toc_entry_size` and appends the parsed entry only when the slice
has at least 30 bytes, and the BOM is `decrypted_toc[entries_size:]` where
`entries_size = toc_entry_count * toc_entry_size`.  No consistency check
relates `entries_size`, the decrypted TOC length, or `toc_length`. -/
def parseTocRegion (decryptedToc : List Nat) (tocEntryCount tocEntrySize : Nat) :
    TocParse :=
  { entries := (List.range tocEntryCount).filterMap
      (fun i => parseTocEntryCode (sliceBytes decryptedToc (i * tocEntrySize) tocEntrySize))
  , bom := decryptedToc.drop (tocEntryCount * tocEntrySize) }

/-- Python `s.split('\n')` on the character list of a decoded string:
splits at every newline and keeps empty pieces. -/
def splitNL : List Char → List (List Char)
  | [] => [[]]
  | c :: cs =>
    if c = '\n' then [] :: splitNL cs
    else
      match splitNL cs with
      | [] => [[c]]
      | piece :: pieces => (c :: piece) :: pieces

/-- Whitespace characters removed by Python `str.strip()` (the ASCII ones,
which are the only ones that can arise from the byte-oriented BOM data). -/
def isPySpace (c : Char) : Bool :=
  c = ' ' || c = '\t' || c = '\n' || c = '\r' || c = '\x0b' || c = '\x0c'

/-- Python `name.strip()`. -/
def stripChars (s : List Char) : List Char :=
  ((s.dropWhile isPySpace).reverse.dropWhile isPySpace).reverse

/-- Embeds `[name.strip() for name in bom_str.split('\n') if name.strip()]`
(psarc_working.py, line 71): split on newlines, strip each piece, keep the
non-empty ones. -/
def decodeBOM (bom : List Char) : List (List Char) :=
  ((splitNL bom).map stripChars).filter (fun s => decide (s ≠ []))

/-- Embeds the synthesized fallback name `f"entry_{i:04d}.bin"`
(psarc_working.py, line 79): decimal digits of `i`, zero-padded on the left
to a minimum width of four. -/
def synthName (i : Nat) : List Char :=
  String.toList "entry_" ++
    (List.replicate (4 - (Nat.toDigits 10 i).length) '0' ++ Nat.toDigits 10 i) ++
    String.toList ".bin"

/-- Embeds the name choice of the extraction loop (psarc_working.py,
lines 75-79): entry `i` takes `file_names[i]` when `i < len(file_names)`,
otherwise the synthesized `entry_NNNN.bin` name. -/
def entryName (fileNames : List (List Char)) (i : Nat) : List Char :=
  if i < fileNames.length then fileNames.getD i [] else synthName i

/-- One file handed to the archive writer: relative name and content bytes. -/
structure PackFile where
  name : List Char
  data : List Nat
deriving DecidableEq

/-- The fixed 12 header bytes written by `create_psarc` (psarc_working.py,
lines 183-185): `b'PSAR'`, `b'\x00\x01\x00\x04'`, `b'zlib'`. -/
def simpleHeader : List Nat :=
  psarMagic ++ [0, 1, 0, 4] ++ [122, 108, 105, 98]

/-- One iteration of the write loop (psarc_working.py, lines 191-193):
`f.write(len(data).to_bytes(4, 'big')); f.write(data)`. -/
def serializeFile (f : PackFile) : Option (List Nat) :=
  match toBytesBE f.data.length 4 with
  | some lenB => some (lenB ++ f.data)
  | none => none

/-- The whole write loop: any iteration that overflows aborts the build. -/
def serializeAll : List PackFile → Option (List Nat)
  | [] => some []
  | f :: fs =>
    match serializeFile f, serializeAll fs with
    | some part, some rest => some (part ++ rest)
    | _, _ => none

/-- The byte string the write loop produces when every length fits:
for each file, the 4-byte big-endian length followed by the content. -/
def bodyBytes : List PackFile → List Nat
  | [] => []
  | f :: fs => natToBEBytes f.data.length 4 ++ (f.data ++ bodyBytes fs)

/-- Embeds `create_psarc` (psarc_working.py, lines 144-197) as the byte
string it writes: the fixed header, the 4-byte big-endian file count, then
for each collected file a 4-byte big-endian length followed by the raw
content bytes.  The BOM string built at line 177 is never written.  `none`
models the `except` path (any exception makes the function return False). -/
def createPsarcBytes (files : List PackFile) : Option (List Nat) :=
  match toBytesBE files.length 4, serializeAll files with
  | some countB, some body => some (simpleHeader ++ countB ++ body)
  | _, _ => none

/-- Reader for the layout `createPsarcBytes` writes.  No such reader exists
in the repository (the format is write-only there); this definition is the
inverse of the written layout, used to state which information the archive
bytes still determine. -/
def readEntriesBack : Nat → List Nat → Option (List (List Nat))
  | 0, _ => some []
  | n + 1, bs =>
    if 4 ≤ bs.length then
      let len := beBytesToNat (bs.take 4)
      let rest := bs.drop 4
      if len ≤ rest.length then
        match readEntriesBack n (rest.drop len) with
        | some tail => some (rest.take len :: tail)
        | none => none
      else none
    else none

/-- Decode the full simplified archive back into its content byte lists. -/
def decodeSimplePsarc (bs : List Nat) : Option (List (List Nat)) :=
  if bs.take 12 = simpleHeader then
    readEntriesBack (beBytesToNat (sliceBytes bs 12 4)) (bs.drop 16)
  else none

/-- Embeds Python `struct.pack('<I', v)` (psarc_handler.py): `none` models
the `struct.error` raised when the value does not fit in 32 bits. -/
def packLE4 (v : Nat) : Option (List Nat) :=
  if v < 256 ^ 4 then
    some [v % 256, v / 256 % 256, v / 256 ^ 2 % 256, v / 256 ^ 3 % 256]
  else none

/-- Embeds `name_bytes.ljust(256, b'\x00')` after `name.encode()[:255]`
(psarc_handler.py, lines 128-129). -/
def nameField (name : List Nat) : List Nat :=
  name.take 255 ++ List.replicate (256 - (name.take 255).length) 0

/-- The file-table loop of `create_simple_psarc` (psarc_handler.py,
lines 126-132): for each file a 256-byte name field, a 4-byte little-endian
data offset, and a 4-byte little-endian data size, with the offset advanced
by the data length. -/
def simpleTable : List (List Nat × List Nat) → Nat → Option (List Nat)
  | [], _ => some []
  | (name, data) :: fs, off =>
    match packLE4 off, packLE4 data.length, simpleTable fs (off + data.length) with
    | some offB, some lenB, some rest => some (nameField name ++ offB ++ lenB ++ rest)
    | _, _, _ => none

/-- Embeds `create_simple_psarc` (psarc_handler.py, lines 98-143) as the
byte string it writes: `b'SPAC'`, a 4-byte little-endian file count, the
file table starting at data offset `8 + len(files) * 264`, then the
concatenated raw file data.  `none` models the `except` path. -/
def createSimplePsarc (files : List (List Nat × List Nat)) : Option (List Nat) :=
  match packLE4 files.length, simpleTable files (8 + files.length * 264) with
  | some countB, some table =>
      some ([83, 80, 65, 67] ++ countB ++ table ++ (files.map Prod.snd).flatten)
  | _, _ => none

/-- Embeds the body of `process_single_psarc_worker`
(rocksmith_guitar_mute.py, lines 581-599): the per-file processing runs
under `try`, and any exception is caught and turned into `None`. -/
def workerWrap {α β ε : Type} (proc : α → Except ε β) (file : α) : Option β :=
  match proc file with
  | Except.ok out => some out
  | Except.error _ => none

/-- Embeds the batch of `process_input` (rocksmith_guitar_mute.py,
lines 554-573): every submitted file is processed by its own worker, each
independently yielding a per-file result (`none` on failure). -/
def processBatch {α β ε : Type} (proc : α → Except ε β) (files : List α) :
    List (Option β) :=
  files.map (workerWrap proc)

/-- Process-wide mutable state touched by `unpack_psarc`: the current
working directory, the set of created directories, and the extracted
files. -/
structure ProcState where
  cwd : List Char
  dirs : List (List Char)
  files : List (List Char × List Nat)
deriving DecidableEq

/-- Embeds `extract_dir.mkdir(parents=True, exist_ok=True)` on the process
state. -/
def mkdirProc (s : ProcState) (dir : List Char) : ProcState :=
  if s.dirs.contains dir then s else { s with dirs := dir :: s.dirs }

/-- Embeds `unpack_psarc` (rocksmith_guitar_mute.py, lines 141-170) with
the Welder calls inside the `try` block abstracted as `body` (an arbitrary
state transformer that may itself fail, carrying the state at the raise
point): `extract_dir.mkdir(...)` first, then `original_cwd = Path.cwd()`
(which is `(mkdirProc s extractDir).cwd`), `os.chdir(extract_dir)`, the
body, and the `finally: os.chdir(original_cwd)` on both exit paths. -/
def unpackPsarc (body : ProcState → Except (List Char × ProcState) ProcState)
    (extractDir : List Char) (s : ProcState) :
    Except (List Char × ProcState) ProcState :=
  match body { mkdirProc s extractDir with cwd := extractDir } with
  | Except.ok s2 => Except.ok { s2 with cwd := (mkdirProc s extractDir).cwd }
  | Except.error es =>
      Except.error (es.1, { es.2 with cwd := (mkdirProc s extractDir).cwd })

/-- File-system state seen by `process_psarc_file`: the set of existing
paths (files and directories). -/
structure FileSystem where
  paths : List (List Char)
deriving DecidableEq

/-- Embeds `Path.exists()`. -/
def pathExists (fs : FileSystem) (p : List Char) : Bool :=
  fs.paths.contains p

/-- Embeds `output_dir.mkdir(parents=True, exist_ok=True)`. -/
def mkdirParents (fs : FileSystem) (dir : List Char) : FileSystem :=
  if fs.paths.contains dir then fs else { paths := dir :: fs.paths }

/-- Embeds `output_dir / psarc_path.name`. -/
def joinPath (dir name : List Char) : List Char :=
  dir ++ '/' :: name

/-- Embeds `_output_exists` (rocksmith_guitar_mute.py, lines 414-426):
`(output_dir / psarc_path.name).exists()`. -/
def outputExists (fs : FileSystem) (psarcName outputDir : List Char) : Bool :=
  pathExists fs (joinPath outputDir psarcName)

/-- Embeds `process_psarc_file` (rocksmith_guitar_mute.py, lines 428-492)
with the unpack/process/repack pipeline abstracted as `pipeline`: the
output directory is created, then `if not force and self._output_exists(...)`
returns the existing output path at once; otherwise the pipeline runs and
its exceptions propagate. -/
def processPsarcFile
    (pipeline : FileSystem → Except (List Char × FileSystem) FileSystem)
    (psarcName outputDir : List Char) (force : Bool) (fs : FileSystem) :
    Except (List Char × FileSystem) (Option (List Char) × FileSystem) :=
  if !force && outputExists (mkdirParents fs outputDir) psarcName outputDir then
    Except.ok (some (joinPath outputDir psarcName), mkdirParents fs outputDir)
  else
    match pipeline (mkdirParents fs outputDir) with
    | Except.ok fs2 => Except.ok (some (joinPath outputDir psarcName), fs2)
    | Except.error es => Except.error es

/-- Concrete 30-byte TOC entry record used to exhibit the decode slip:
bytes 1, 2, ..., 30. -/
def recordSample : List Nat := (List.range 30).map (fun i => i + 1)

/-- Concrete 32-byte archive header with archiveFlags = 4. -/
def headerSample : List Nat :=
  psarMagic ++ [0, 1] ++ [0, 4] ++ [122, 108, 105, 98] ++
    [0, 0, 0, 10] ++ [0, 0, 0, 30] ++ [0, 0, 0, 1] ++ [0, 1, 0, 0] ++ [0, 0, 0, 4]

/-- Concrete worker used to instantiate the batch theorems: fails on 0,
succeeds with `n + 1` otherwise. -/
def procSample (n : Nat) : Except (List Char) Nat :=
  if n = 0 then Except.error ['b', 'a', 'd'] else Except.ok (n + 1)

/-- The header record `parseHeader` yields on `headerSample`. -/
def headerSampleParsed : PsarcHeader :=
  { magic := psarMagic
  , versionMajor := 1
  , versionMinor := 4
  , compression := [122, 108, 105, 98]
  , tocLength := 10
  , tocEntrySize := 30
  , tocEntryCount := 1
  , blockSize := 65536
  , archiveFlags := 4 }

/-- Concrete file-system state for the skip-existing theorem: the output
directory `o` and the output file `o/a.psarc` both exist. -/
def fsSample : FileSystem :=
  { paths := [['o'], joinPath ['o'] (String.toList "a.psarc")] }

theorem length_natToBEBytes (n : Nat) : ∀ v : Nat, (natToBEBytes v n).length = n := by
  induction n with
  | zero => intro v; rfl
  | succ n ih => intro v; simp [natToBEBytes, ih]

theorem beBytesToNat_natToBEBytes (n : Nat) :
    ∀ v : Nat, v < 256 ^ n → beBytesToNat (natToBEBytes v n) = v := by
  induction n with
  | zero =>
    intro v hv
    rw [pow_zero, Nat.lt_one_iff] at hv
    subst hv
    rfl
  | succ n ih =>
    intro v hv
    have hpos : 0 < 256 ^ n := by positivity
    have hdiv : v / 256 ^ n < 256 := by
      have hexp : (256 : Nat) ^ (n + 1) = 256 ^ n * 256 := by ring
      rw [Nat.div_lt_iff_lt_mul hpos]
      omega
    simp only [natToBEBytes, beBytesToNat, length_natToBEBytes]
    rw [ih (v % 256 ^ n) (Nat.mod_lt v hpos), Nat.mod_eq_of_lt hdiv, Nat.mul_comm]
    exact Nat.div_add_mod v (256 ^ n)

theorem take_append_exact {α : Type} (l r : List α) (n : Nat) (h : l.length = n) :
    (l ++ r).take n = l := by
  subst h
  exact List.take_left l r

theorem drop_append_exact {α : Type} (l r : List α) (n : Nat) (h : l.length = n) :
    (l ++ r).drop n = r := by
  subst h
  exact List.drop_left l r

theorem length_filterMap_of_isSome {α β : Type} (f : α → Option β) :
    ∀ l : List α, (∀ a ∈ l, (f a).isSome) → (l.filterMap f).length = l.length := by
  intro l
  induction l with
  | nil => intro _; rfl
  | cons a as ih =>
    intro h
    have ha := h a (List.mem_cons_self a as)
    rw [List.filterMap_cons]
    cases hf : f a with
    | none => rw [hf] at ha; cases ha
    | some b =>
      simp only [List.length_cons]
      rw [ih (fun x hx => h x (List.mem_cons_of_mem a hx))]

theorem serializeAll_eq_bodyBytes : ∀ files : List PackFile,
    (∀ f ∈ files, f.data.length < 256 ^ 4) →
    serializeAll files = some (bodyBytes files) := by
  intro files
  induction files with
  | nil => intro _; rfl
  | cons f fs ih =>
    intro h
    have hf := h f (List.mem_cons_self f fs)
    unfold serializeAll serializeFile toBytesBE
    rw [if_pos hf, ih (fun g hg => h g (List.mem_cons_of_mem f hg))]
    simp [bodyBytes, List.append_assoc]

theorem readEntriesBack_bodyBytes : ∀ files : List PackFile,
    (∀ f ∈ files, f.data.length < 256 ^ 4) →
    readEntriesBack files.length (bodyBytes files) = some (files.map PackFile.data) := by
  intro files
  induction files with
  | nil => intro _; rfl
  | cons f fs ih =>
    intro h
    have hf := h f (List.mem_cons_self f fs)
    have hlenB : (natToBEBytes f.data.length 4).length = 4 :=
      length_natToBEBytes 4 f.data.length
    have hbody : bodyBytes (f :: fs) =
        natToBEBytes f.data.length 4 ++ (f.data ++ bodyBytes fs) := rfl
    have hlen4 : 4 ≤ (bodyBytes (f :: fs)).length := by
      rw [hbody, List.length_append, hlenB]
      exact Nat.le_add_right 4 _
    have htake : (bodyBytes (f :: fs)).take 4 = natToBEBytes f.data.length 4 := by
      rw [hbody]; exact take_append_exact _ _ 4 hlenB
    have hdrop : (bodyBytes (f :: fs)).drop 4 = f.data ++ bodyBytes fs := by
      rw [hbody]; exact drop_append_exact _ _ 4 hlenB
    simp only [List.length_cons, readEntriesBack]
    rw [if_pos hlen4, htake, hdrop, beBytesToNat_natToBEBytes 4 f.data.length hf,
      if_pos (by rw [List.length_append]; exact Nat.le_add_right _ _),
      take_append_exact f.data (bodyBytes fs) f.data.length rfl,
      drop_append_exact f.data (bodyBytes fs) f.data.length rfl,
      ih (fun g hg => h g (List.mem_cons_of_mem f hg))]
    rfl

theorem serializeAll_overflow :
    ∀ (files : List PackFile) (f : PackFile), f ∈ files →
      256 ^ 4 ≤ f.data.length → serializeAll files = none := by
  intro files
  induction files with
  | nil => intro f hf; cases hf
  | cons g gs ih =>
    intro f hf hb
    rcases List.mem_cons.mp hf with rfl | hmem
    · unfold serializeAll serializeFile toBytesBE
      rw [if_neg (Nat.not_lt.mpr hb)]
    · unfold serializeAll
      rw [ih f hmem hb]
      cases serializeFile g <;> rfl

theorem createPsarcBytes_overflow (files : List PackFile) (f : PackFile)
    (hf : f ∈ files) (hb : 2 ^ 32 ≤ f.data.length) :
    createPsarcBytes files = none := by
  have h256 : (256 : Nat) ^ 4 = 2 ^ 32 := by norm_num
  unfold createPsarcBytes
  rw [serializeAll_overflow files f hf (h256 ▸ hb)]
  cases toBytesBE files.length 4 <;> rfl

theorem simpleTable_overflow :
    ∀ (files : List (List Nat × List Nat)) (off : Nat) (f : List Nat × List Nat),
      f ∈ files → 2 ^ 32 ≤ f.2.length → simpleTable files off = none := by
  intro files
  induction files with
  | nil => intro off f hf; cases hf
  | cons g gs ih =>
    intro off f hf hb
    have h256 : (256 : Nat) ^ 4 = 2 ^ 32 := by norm_num
    rcases List.mem_cons.mp hf with rfl | hmem
    · have hlen : packLE4 f.2.length = none := by
        unfold packLE4
        rw [if_neg (Nat.not_lt.mpr (h256 ▸ hb))]
      unfold simpleTable
      rw [hlen]
      cases packLE4 off <;> cases simpleTable gs (off + f.2.length) <;> rfl
    · unfold simpleTable
      rw [ih (off + g.2.length) f hmem hb]
      cases packLE4 off <;> cases packLE4 g.2.length <;> rfl

theorem createSimplePsarc_overflow (files : List (List Nat × List Nat))
    (f : List Nat × List Nat) (hf : f ∈ files) (hb : 2 ^ 32 ≤ f.2.length) :
    createSimplePsarc files = none := by
  unfold createSimplePsarc
  rw [simpleTable_overflow files (8 + files.length * 264) f hf hb]
  cases packLE4 files.length <;> rfl

/-- C1 (counterexample): packing discards the entry names entirely, so no
unpack function can recover the name set from the repacked archive: two
input trees that differ only in a file name produce byte-identical
archives. -/
theorem c1_pack_forgets_names :
    createPsarcBytes [{ name := ['a'], data := [0] }] =
      createPsarcBytes [{ name := ['b'], data := [0] }] ∧
    (['a'] : List Char) ≠ ['b'] := by
  decide

/-- C1 (amended): the repacked archive determines the ordered list of entry
content byte strings exactly (they decode back from the bytes `create_psarc`
writes), but not the entry names, which are never written. -/
theorem c1_contents_recoverable (files : List PackFile)
    (hcount : files.length < 2 ^ 32)
    (hdata : ∀ f ∈ files, f.data.length < 2 ^ 32) :
    ∃ out, createPsarcBytes files = some out ∧
      decodeSimplePsarc out = some (files.map PackFile.data) := by
  have h256 : (256 : Nat) ^ 4 = 2 ^ 32 := by norm_num
  have hdata256 : ∀ f ∈ files, f.data.length < 256 ^ 4 := fun f hf => by
    rw [h256]; exact hdata f hf
  have hcount256 : files.length < 256 ^ 4 := by rw [h256]; exact hcount
  have hser := serializeAll_eq_bodyBytes files hdata256
  have hcnt : toBytesBE files.length 4 = some (natToBEBytes files.length 4) := by
    unfold toBytesBE; rw [if_pos hcount256]
  have hclen : (natToBEBytes files.length 4).length = 4 := length_natToBEBytes 4 _
  refine ⟨simpleHeader ++ (natToBEBytes files.length 4 ++ bodyBytes files), ?_, ?_⟩
  · unfold createPsarcBytes
    rw [hcnt, hser]
    simp [List.append_assoc]
  · have h12 : simpleHeader.length = 12 := rfl
    have htake : (simpleHeader ++ (natToBEBytes files.length 4 ++ bodyBytes files)).take 12 =
        simpleHeader := take_append_exact _ _ 12 h12
    have hdrop : (simpleHeader ++ (natToBEBytes files.length 4 ++ bodyBytes files)).drop 12 =
        natToBEBytes files.length 4 ++ bodyBytes files := drop_append_exact _ _ 12 h12
    unfold decodeSimplePsarc
    rw [if_pos htake]
    unfold sliceBytes
    rw [hdrop, take_append_exact _ _ 4 hclen,
      beBytesToNat_natToBEBytes 4 files.length hcount256]
    have hd16 : (simpleHeader ++ (natToBEBytes files.length 4 ++ bodyBytes files)).drop 16 =
        bodyBytes files := by
      rw [← List.append_assoc]
      refine drop_append_exact _ _ 16 ?_
      rw [List.length_append, h12, hclen]
    rw [hd16]
    exact readEntriesBack_bodyBytes files hdata256

/-- C1 (witness). -/
theorem c1_contents_recoverable_witness :
    ∃ out, createPsarcBytes [{ name := ['x'], data := [7, 8] }] = some out ∧
      decodeSimplePsarc out = some [[7, 8]] :=
  c1_contents_recoverable [{ name := ['x'], data := [7, 8] }] (by decide) (by decide)

/-- C2: on a concrete 30-byte TOC entry record (bytes 1..30) the code's
decode reads the length from the four bytes [20:24] and the offset from the
four bytes [24:28], disagreeing with the 40-bit five-byte decode at [20:25]
and [25:30] that its own comments and the spec describe. -/
theorem c2_entry_fields_read_four_bytes :
    (parseTocEntryCode recordSample).map TocEntry.length =
      some (beBytesToNat (sliceBytes recordSample 20 4)) ∧
    (parseTocEntrySpec recordSample).map TocEntry.length =
      some (beBytesToNat (sliceBytes recordSample 20 5)) ∧
    (parseTocEntryCode recordSample).map TocEntry.length ≠
      (parseTocEntrySpec recordSample).map TocEntry.length ∧
    (parseTocEntryCode recordSample).map TocEntry.offset ≠
      (parseTocEntrySpec recordSample).map TocEntry.offset := by
  decide

/-- C3 (counterexample): a single entry of length 2^32 — far below the
claimed 2^40 capacity — already makes `create_psarc` fail, because the
writer serializes lengths into a 4-byte field; there is no 40-bit field and
no `CapacityExceededError` in the code. -/
theorem c3_fails_below_2pow40 :
    createPsarcBytes [{ name := ['a'], data := List.replicate (2 ^ 32) 0 }] = none ∧
    (List.replicate (2 ^ 32) (0 : Nat)).length < 2 ^ 40 := by
  constructor
  · exact createPsarcBytes_overflow _ _ (List.mem_singleton.mpr rfl)
      (by rw [List.length_replicate])
  · rw [List.length_replicate]
    norm_num

/-- C3 (amended): in both writers any entry whose content length is at
least 2^32 — the capacity of the 4-byte length field actually used — makes
the whole build fail (the serialization error is caught and the function
reports failure); the value is never silently truncated. -/
theorem c3_overflow_aborts_build :
    (∀ (files : List PackFile) (f : PackFile), f ∈ files →
        2 ^ 32 ≤ f.data.length → createPsarcBytes files = none) ∧
    (∀ (files : List (List Nat × List Nat)) (f : List Nat × List Nat), f ∈ files →
        2 ^ 32 ≤ f.2.length → createSimplePsarc files = none) :=
  ⟨createPsarcBytes_overflow, createSimplePsarc_overflow⟩

/-- C3 (witness). -/
theorem c3_overflow_aborts_build_witness :
    createPsarcBytes [{ name := ['a'], data := List.replicate (2 ^ 32) 0 }] = none ∧
    createSimplePsarc [([97], List.replicate (2 ^ 32) 0)] = none :=
  ⟨c3_overflow_aborts_build.1 _ _ (List.mem_singleton.mpr rfl)
      (by rw [List.length_replicate]),
   c3_overflow_aborts_build.2 _ _ (List.mem_singleton.mpr rfl)
      (by rw [List.length_replicate])⟩

/-- C4: for every archive whose header parses, the analyzer takes the
decrypt-the-TOC branch exactly when bit 2 (value 4) of the 32-bit
archiveFlags field is set. -/
theorem c4_encryption_branch_is_flag_bit2 (data : List Nat) (h : PsarcHeader)
    (hp : parseHeader data = some h) :
    ((parseHeader data).map tocHandling = some TocHandling.decryptFirst ↔
      h.archiveFlags.testBit 2) := by
  rw [hp]
  have h4 : h.archiveFlags &&& 4 = (h.archiveFlags.testBit 2).toNat * 4 := by
    have := Nat.and_two_pow h.archiveFlags 2
    norm_num at this
    exact this
  unfold tocHandling isEncrypted
  cases hb : h.archiveFlags.testBit 2 <;> simp [h4, hb]

/-- C4 (witness). -/
theorem c4_encryption_branch_is_flag_bit2_witness :
    (parseHeader headerSample).map tocHandling = some TocHandling.decryptFirst :=
  (c4_encryption_branch_is_flag_bit2 headerSample headerSampleParsed (by decide)).mpr
    (by decide)

/-- C5 (counterexample): the analyzer performs no consistency check: a
decrypted TOC of 10 bytes with tocEntryCount = 1 and tocEntrySize = 30
(so tocEntryCount * tocEntrySize = 30 > 10 = tocLength) is still parsed
without error — the undersized entry record is silently skipped and the
BOM comes out empty. -/
theorem c5_invariant_not_enforced :
    parseTocRegion (List.replicate 10 0) 1 30 = { entries := [], bom := [] } ∧
    ¬ (1 * 30 ≤ (List.replicate 10 (0 : Nat)).length) := by
  decide

/-- C5 (amended): the code never checks `tocEntryCount * tocEntrySize ≤
tocLength` nor that the decrypted TOC length equals tocLength; what does
hold is the structural accounting: the BOM is exactly the decrypted TOC
bytes after the first `tocEntryCount * tocEntrySize` bytes, and whenever
the entry table does fit (and records are at least 30 bytes wide) exactly
`tocEntryCount` entries are decoded. -/
theorem c5_bom_follows_entry_table (decryptedToc : List Nat) (count size : Nat)
    (hsize : 30 ≤ size) (hlen : count * size ≤ decryptedToc.length) :
    (parseTocRegion decryptedToc count size).entries.length = count ∧
    (parseTocRegion decryptedToc count size).bom =
      decryptedToc.drop (count * size) := by
  constructor
  · show ((List.range count).filterMap _).length = count
    rw [length_filterMap_of_isSome _ (List.range count) ?_]
    · exact List.length_range count
    · intro i hi
      rw [List.mem_range] at hi
      have hle : i * size + size ≤ decryptedToc.length := by
        have h1 : (i + 1) * size ≤ count * size := Nat.mul_le_mul_right size hi
        have h2 : i * size + size = (i + 1) * size := by ring
        omega
      have hslice : (sliceBytes decryptedToc (i * size) size).length = size := by
        unfold sliceBytes
        rw [List.length_take, List.length_drop]
        omega
      unfold parseTocEntryCode
      rw [if_pos (le_trans hsize (le_of_eq hslice.symm))]
      rfl
  · rfl

/-- C5 (witness). -/
theorem c5_bom_follows_entry_table_witness :
    (parseTocRegion (List.replicate 64 0) 2 30).entries.length = 2 ∧
    (parseTocRegion (List.replicate 64 0) 2 30).bom =
      (List.replicate 64 (0 : Nat)).drop (2 * 30) :=
  c5_bom_follows_entry_table (List.replicate 64 0) 2 30 (by decide) (by decide)

/-- C6: the decoded BOM list is the newline-split, stripped, non-empty
lines of the BOM text, and within range each TOC entry `i` is paired with
name `i` of that list, in order. -/
theorem c6_bom_positional_pairing (bom : List Char) (i : Nat)
    (h : i < (decodeBOM bom).length) :
    entryName (decodeBOM bom) i = (decodeBOM bom).getD i [] ∧
    (∀ name ∈ decodeBOM bom, name ≠ []) ∧
    (∀ name ∈ decodeBOM bom, name ∈ (splitNL bom).map stripChars) := by
  refine ⟨?_, ?_, ?_⟩
  · unfold entryName
    rw [if_pos h]
  · intro name hn
    have := List.of_mem_filter hn
    simpa using this
  · intro name hn
    exact List.mem_of_mem_filter hn

/-- C6 (witness). -/
theorem c6_bom_positional_pairing_witness :
    entryName (decodeBOM (String.toList "a\n\nb\n")) 1 =
      (decodeBOM (String.toList "a\n\nb\n")).getD 1 [] ∧
    (∀ name ∈ decodeBOM (String.toList "a\n\nb\n"), name ≠ []) ∧
    (∀ name ∈ decodeBOM (String.toList "a\n\nb\n"),
      name ∈ (splitNL (String.toList "a\n\nb\n")).map stripChars) :=
  c6_bom_positional_pairing (String.toList "a\n\nb\n") 1 (by decide)

/-- C7: a worker that fails yields a per-file `none` and leaves every other
file's result untouched — the batch is never aborted, and its result list
keeps one slot per submitted file. -/
theorem c7_batch_failure_isolated {α β ε : Type} (proc : α → Except ε β)
    (before after : List α) (bad : α) (e : ε)
    (hbad : proc bad = Except.error e) :
    processBatch proc (before ++ bad :: after) =
      processBatch proc before ++ none :: processBatch proc after ∧
    (processBatch proc (before ++ bad :: after)).length =
      before.length + 1 + after.length := by
  constructor
  · simp [processBatch, workerWrap, hbad]
  · simp [processBatch]
    omega

/-- C7 (witness). -/
theorem c7_batch_failure_isolated_witness :
    processBatch procSample ([1] ++ 0 :: [2]) =
      processBatch procSample [1] ++ none :: processBatch procSample [2] ∧
    (processBatch procSample ([1] ++ 0 :: [2])).length = [1].length + 1 + [2].length :=
  c7_batch_failure_isolated procSample [1] [2] 0 ['b', 'a', 'd'] rfl

/-- C8: whatever the unpacking body does and however it exits — normal
return or exception — `unpack_psarc` leaves the current working directory
exactly as it found it. -/
theorem c8_cwd_always_restored
    (body : ProcState → Except (List Char × ProcState) ProcState)
    (extractDir : List Char) (s : ProcState) :
    (match unpackPsarc body extractDir s with
     | Except.ok s2 => s2.cwd
     | Except.error es => es.2.cwd) = s.cwd := by
  have hmk : (mkdirProc s extractDir).cwd = s.cwd := by
    unfold mkdirProc
    split <;> rfl
  unfold unpackPsarc
  cases body { mkdirProc s extractDir with cwd := extractDir } <;> simp [hmk]

/-- C9: with `force = False` and the output file already present, the
function returns that existing output path at once, without invoking the
unpack/process/repack pipeline (any pipeline gives the same result) and
without changing the file system. -/
theorem c9_existing_output_skipped
    (pipeline : FileSystem → Except (List Char × FileSystem) FileSystem)
    (psarcName outputDir : List Char) (fs : FileSystem)
    (hout : outputExists fs psarcName outputDir = true)
    (hdir : fs.paths.contains outputDir = true) :
    processPsarcFile pipeline psarcName outputDir false fs =
      Except.ok (some (joinPath outputDir psarcName), fs) := by
  have hmk : mkdirParents fs outputDir = fs := by
    unfold mkdirParents
    rw [if_pos hdir]
  unfold processPsarcFile
  rw [hmk]
  simp [hout]

/-- C9 (witness). -/
theorem c9_existing_output_skipped_witness :
    processPsarcFile (fun s => Except.error ([], s)) (String.toList "a.psarc")
        ['o'] false fsSample =
      Except.ok (some (joinPath ['o'] (String.toList "a.psarc")), fsSample) :=
  c9_existing_output_skipped (fun s => Except.error ([], s))
    (String.toList "a.psarc") ['o'] fsSample (by decide) (by decide)

/-- C10: when the decoded BOM has fewer names than the TOC has entries, the
extraction loop does not fail: every entry index at or beyond the name
count gets the synthesized name `entry_` + the decimal index zero-padded to
at least four digits + `.bin`. -/
theorem c10_missing_names_synthesized (bom : List Char) (i : Nat)
    (h : (decodeBOM bom).length ≤ i) :
    entryName (decodeBOM bom) i =
      String.toList "entry_" ++
        (List.replicate (4 - (Nat.toDigits 10 i).length) '0' ++ Nat.toDigits 10 i) ++
        String.toList ".bin" := by
  unfold entryName
  rw [if_neg (Nat.not_lt.mpr h)]
  rfl

/-- C10 (witness). -/
theorem c10_missing_names_synthesized_witness :
    entryName (decodeBOM (String.toList "a")) 3 =
      String.toList "entry_" ++
        (List.replicate (4 - (Nat.toDigits 10 3).length) '0' ++ Nat.toDigits 10 3) ++
        String.toList ".bin" :=
  c10_missing_names_synthesized (String.toList "a") 3 (by decide)

end PSARC
